import Mathlib

/-!
Verification development for the localWebSearch repository.

The Python source is shallowly embedded: pure functions become Lean
functions over `String`/`Nat`/`Int`/`ℚ` (Python float arithmetic in the
scorer is modelled with exact rationals), stateful code becomes explicit
state passing, and fallible code returns `Except`.  Browser/page side
effects (navigation, DOM evaluation, locator reads) are external to the
repository; each such call site is modelled by an environment record
field giving that call's outcome, exactly at the granularity of the
`await` sites in the source.
-/

namespace WebSearch

/-! ## Python string primitives used by the source -/

/-- Characters Python's `str.strip()` removes (ASCII whitespace). -/
def pyIsSpace (c : Char) : Bool :=
  c = ' ' ∨ c = '\t' ∨ c = '\n' ∨ c = '\r' ∨ c = '\x0b' ∨ c = '\x0c'

/-- Python `str.strip()`. -/
def pyStrip (s : String) : String :=
  ((s.toList.dropWhile pyIsSpace).reverse.dropWhile pyIsSpace).reverse.asString

/-- Python `str.rstrip()`. -/
def pyRstrip (s : String) : String :=
  (s.toList.reverse.dropWhile pyIsSpace).reverse.asString

/-- Python `str.lstrip('.')` as used on cookie domains. -/
def pyLstripDots (s : String) : String :=
  (s.toList.dropWhile (fun c => c = '.')).asString

/-- Python `str.splitlines()` restricted to the newline forms `\r\n`, `\r`,
`\n` (the only ones occurring in this system's texts). -/
def pySplitlines (s : String) : List String :=
  go s.toList [] []
where
  go : List Char → List Char → List String → List String
    | [], [], acc => acc.reverse
    | [], cur, acc => (cur.reverse.asString :: acc).reverse
    | '\r' :: '\n' :: rest, cur, acc => go rest [] (cur.reverse.asString :: acc)
    | '\r' :: rest, cur, acc => go rest [] (cur.reverse.asString :: acc)
    | '\n' :: rest, cur, acc => go rest [] (cur.reverse.asString :: acc)
    | c :: rest, cur, acc => go rest (c :: cur) acc

/-- Python `str.split()` (split on whitespace runs, dropping empties). -/
def pySplitWs (s : String) : List String :=
  go (s.toList.dropWhile pyIsSpace) []
where
  go : List Char → List Char → List String
    | [], [] => []
    | [], cur => [cur.reverse.asString]
    | c :: rest, cur =>
      if pyIsSpace c then
        cur.reverse.asString :: go (rest.dropWhile pyIsSpace) []
      else
        go rest (c :: cur)
  termination_by l _ => l.length
  decreasing_by
    all_goals
      simp only [List.length_cons]
      first
        | (have h2 : (List.dropWhile pyIsSpace rest).Sublist rest :=
             List.dropWhile_sublist pyIsSpace
           have h3 := h2.length_le
           omega)
        | omega

/-- Length of the first alternative (tried in order) matching at the head of
`s`; models a regex alternation of literal words anchored at one position. -/
def matchLen (alts : List String) (s : List Char) : Option Nat :=
  alts.findSome? fun a =>
    if a.toList.isPrefixOf s then some a.toList.length else none

/-- Fuel-driven scan counting leftmost non-overlapping matches of a literal
alternation, the behaviour of `re.findall` for such patterns.  The fuel is
instantiated with the text length, enough since every step consumes at
least one character. -/
def scanCountAux (alts : List String) : Nat → List Char → Nat
  | 0, _ => 0
  | _, [] => 0
  | fuel + 1, c :: rest =>
    match matchLen alts (c :: rest) with
    | some n => 1 + scanCountAux alts fuel (List.drop (n - 1) rest)
    | none => scanCountAux alts fuel rest

/-- Count of leftmost non-overlapping matches of any alternative in `s`. -/
def scanCount (alts : List String) (s : String) : Nat :=
  scanCountAux alts s.length s.toList

/-- Python `str.count(sub)` for a non-empty literal `sub`. -/
def countSub (sub : String) (s : String) : Nat :=
  scanCount [sub] s

/-- Python `sub in s` substring test. -/
def containsSub (s : String) (sub : String) : Bool :=
  go sub.toList s.toList
where
  go (needle : List Char) : List Char → Bool
    | [] => needle.isPrefixOf []
    | c :: rest => needle.isPrefixOf (c :: rest) || go needle rest

/-- Python `str.lower()` for the ASCII/CJK texts this system handles. -/
def pyToLower (s : String) : String :=
  (s.toList.map Char.toLower).asString

/-- Python `str.endswith(suffix)`. -/
def pyEndsWith (s suffix : String) : Bool :=
  suffix.toList.isSuffixOf s.toList

/-- Whitespace collapsed by `re.sub(r"[ \t]+", " ", text)`. -/
def isSpaceTab (c : Char) : Bool := c = ' ' ∨ c = '\t'

/-- Fuel-driven model of `re.sub(r"[ \t]+", " ", text)`: every maximal run
of spaces/tabs becomes a single space. -/
def collapseSpaceTabAux : Nat → List Char → List Char
  | 0, _ => []
  | _, [] => []
  | fuel + 1, c :: rest =>
    if isSpaceTab c then
      ' ' :: collapseSpaceTabAux fuel (rest.dropWhile isSpaceTab)
    else
      c :: collapseSpaceTabAux fuel rest

/-- Model of `re.sub(r"\r\n", "\n", text)`. -/
def replaceCRLF : List Char → List Char
  | [] => []
  | '\r' :: '\n' :: rest => '\n' :: replaceCRLF rest
  | c :: rest => c :: replaceCRLF rest

/-- Fuel-driven model of `re.sub(r"\n{3,}", "\n\n", text)`: every maximal
run of three or more newlines becomes two. -/
def collapseNewlinesAux : Nat → List Char → List Char
  | 0, _ => []
  | _, [] => []
  | fuel + 1, c :: rest =>
    if c = '\n' then
      let run := rest.takeWhile (fun d => d = '\n')
      let rest' := rest.dropWhile (fun d => d = '\n')
      (if run.length + 1 ≥ 3 then ['\n', '\n'] else '\n' :: run) ++
        collapseNewlinesAux fuel rest'
    else
      c :: collapseNewlinesAux fuel rest

/-- Python `text[:max_chars] + "\n\n...[TRUNCATED]..."` applied when the
text exceeds `max_chars` characters. -/
def truncateWithMarker (maxChars : Nat) (s : String) : String :=
  if s.length > maxChars then
    (s.toList.take maxChars).asString ++ "\n\n...[TRUNCATED]..."
  else s

/-- Source `page_crawler._normalize_text`. -/
def normalize_text (text : String) (maxChars : Nat := 10000) : String :=
  let t1 := (collapseSpaceTabAux text.length text.toList).asString
  let t2 := (replaceCRLF t1.toList).asString
  let t3 := pyStrip (collapseNewlinesAux t2.length t2.toList).asString
  truncateWithMarker maxChars t3

/-- Source `search_engines.default_clean_title`:
`" ".join(s.split()).strip()`. -/
def default_clean_title (s : String) : String :=
  pyStrip (String.intercalate " " (pySplitWs s))

/-! ## Text scoring (`page_crawler._score_text`) -/

/-- Source `NOISE_PATTERNS`, first regex group, as the list of its literal
alternatives (lower-cased, matching `re.I`). -/
def noisePattern1 : List String :=
  ["登录", "注册", "隐私", "cookie", "广告", "赞助", "推荐", "关注",
   "下载", "app", "客户端", "免责声明", "相关文章", "阅读更多", "展开全文"]

/-- Source `NOISE_PATTERNS`, second regex group, as the list of its literal
alternatives. -/
def noisePattern2 : List String :=
  ["sign in", "log in", "register", "cookie", "privacy", "terms",
   "subscribe", "advertis", "sponsor", "download", "continue reading"]

/-- Source `sum(len(re.findall(p, text, flags=re.I)) for p in NOISE_PATTERNS)`:
each pattern group is scanned independently over the whole text. -/
def noiseCount (text : String) : Nat :=
  scanCount noisePattern1 (pyToLower text) +
    scanCount noisePattern2 (pyToLower text)

/-- Source `sum(1 for ln in text.splitlines() if 0 < len(ln.strip()) < 30)`. -/
def shortLineCount (text : String) : Nat :=
  ((pySplitlines text).filter
    (fun ln => 0 < (pyStrip ln).length ∧ (pyStrip ln).length < 30)).length

/-- Pre-floor scoring formula of `_score_text` (the running `score` before
`max(score, 0.0)`), over the five formula inputs, with the source's float
constants as exact rationals. -/
def raw_formula (length paras lines noise short : ℕ) : ℚ :=
  (min length 12000 : ℕ) / 40 + (min paras 60 : ℕ) * 1.8 +
    (min lines 180 : ℕ) * 0.15 - (noise : ℚ) * 12 - (short : ℚ) * 0.35

/-- Scoring formula of `_score_text` as a function of its five inputs,
including the short-text guard and the final floor at 0. -/
def score_from_stats (length paras lines noise short : ℕ) : ℚ :=
  if length < 120 then 0
  else max (raw_formula length paras lines noise short) 0

/-- Source `page_crawler._score_text` (`if not text or len(text) < 120`
collapses to the length guard, since an empty text has length 0). -/
def score_text (text : String) : ℚ :=
  score_from_stats text.length (countSub "\n\n" text + 1)
    (countSub "\n" text + 1) (noiseCount text) (shortLineCount text)

/-! ## Data model (`models.py`) -/

/-- Source `models.CandidateScore`. -/
structure CandidateScore where
  method : String
  score : ℚ
  len : ℕ
deriving DecidableEq, Repr

/-- Source `models.PageResult` (pydantic `HttpUrl` fields modelled as
strings; float score as an exact rational). -/
structure PageResult where
  engine : Option String := none
  title : Option String := none
  url : Option String := none
  final_url : Option String := none
  page_title : Option String := none
  method : Option String := none
  score : Option ℚ := none
  candidates : Option (List CandidateScore) := none
  text : String := ""
  error : Option String := none
deriving DecidableEq, Repr

/-- Source `models.PageResult.is_good`. -/
def PageResult.is_good (r : PageResult) : Bool :=
  if r.error.isSome then false
  else if r.method = some "github_issue" then r.text.length > 160
  else r.text.length > 256

/-- Search hit dictionary `{engine, title, url}` produced by the dispatcher
and consumed by the crawler. -/
structure Hit where
  engine : String
  title : String
  url : String
deriving DecidableEq, Repr

/-! ## Method priors and winner selection (`crawl_page_content`) -/

/-- Source `METHOD_PRIOR` with the `.get(m, 1.0)` default. -/
def methodPrior (m : String) : ℚ :=
  if m = "github_issue" then 1.55
  else if m = "selectors" then 1.20
  else if m = "main_block" then 1.10
  else if m = "readability" then 1.00
  else if m = "body" then 0.90
  else 1

/-- One scored candidate `(method, weighted score, text)`. -/
abbrev Scored := String × ℚ × String

/-- Source loop `for m, t in candidates: s = _score_text(t) * METHOD_PRIOR.get(m, 1.0)`. -/
def weightCandidates (cands : List (String × String)) : List Scored :=
  cands.map fun mt => (mt.1, score_text mt.2 * methodPrior mt.1, mt.2)

/-- Stable descending insertion: a later element is placed after every
earlier element of greater-or-equal score. -/
def insertScoredDesc (x : Scored) : List Scored → List Scored
  | [] => [x]
  | y :: ys => if x.2.1 > y.2.1 then x :: y :: ys else y :: insertScoredDesc x ys

/-- Source `scored.sort(key=lambda x: x[1], reverse=True)`: Python's sort is
stable, so equal scores keep candidate insertion order. -/
def sortScoredDesc (l : List Scored) : List Scored :=
  l.foldl (fun acc x => insertScoredDesc x acc) []

/-! ## utils.clean_page_text -/

/-- Test for the source regex `^\s*[-*•]\s+`. -/
def isListLine (ln : String) : Bool :=
  match ln.toList.dropWhile pyIsSpace with
  | c :: d :: _ => (c = '-' ∨ c = '*' ∨ c = '•') ∧ pyIsSpace d
  | _ => false

/-- Test for the source regex `^\s*\d+\.\s+`. -/
def isNumberedLine (ln : String) : Bool :=
  let afterWs := ln.toList.dropWhile pyIsSpace
  let digits := afterWs.takeWhile Char.isDigit
  match afterWs.drop digits.length with
  | '.' :: d :: _ => digits ≠ [] ∧ pyIsSpace d
  | _ => false

/-- Test for `ln.startswith(("    ", "\t", "```"))`. -/
def startsLikeCode (ln : String) : Bool :=
  "    ".toList.isPrefixOf ln.toList ∨ "\t".toList.isPrefixOf ln.toList ∨
    "```".toList.isPrefixOf ln.toList

/-- Source `utils.clean_page_text` main loop: `out` and `buffer` are the
accumulators, `flush` appends the joined buffer to `out`. -/
def cleanLoop : List String → List String → List String → List String
  | [], out, buffer =>
    (if buffer ≠ [] then pyStrip (String.intercalate " " buffer.reverse) :: out
     else out).reverse
  | ln :: rest, out, buffer =>
    let ln := pyRstrip ln
    let flushed :=
      if buffer ≠ [] then pyStrip (String.intercalate " " buffer.reverse) :: out
      else out
    if pyStrip ln = "" then
      cleanLoop rest flushed []
    else if startsLikeCode ln ∨ isListLine ln ∨ isNumberedLine ln then
      cleanLoop rest (ln :: flushed) []
    else if ln.length < 80 ∧ pyEndsWith ln ":" then
      cleanLoop rest (pyStrip ln :: flushed) []
    else
      cleanLoop rest out (pyStrip ln :: buffer)

/-- Source `utils.clean_page_text`. -/
def clean_page_text (text : String) (maxChars : Nat := 10000) : String :=
  if text = "" then ""
  else
    let out := cleanLoop (pySplitlines text) [] []
    let joined := String.intercalate "\n\n" out
    let collapsed := pyStrip (collapseNewlinesAux joined.length joined.toList).asString
    truncateWithMarker maxChars collapsed

/-! ## Content extraction pipeline (`page_crawler.crawl_page_content`)

Browser interactions (`page.goto`, `page.evaluate`, locator reads,
`page.content`, the readability library call on the returned HTML) are
external effects; each `await` site is modelled by one field of
`CrawlEnv` giving that call's outcome (`Except` for calls whose failure
the source does not catch locally).  The pure Python code around those
call sites is translated directly. -/

/-- Characters after the first `"://"` of a URL, `none` when it has no
scheme part. -/
def afterScheme (u : String) : Option (List Char) :=
  go u.toList
where
  go : List Char → Option (List Char)
    | [] => none
    | c :: rest =>
      if [':', '/', '/'].isPrefixOf (c :: rest) then some (rest.drop 2)
      else go rest

/-- Model of `urllib.parse.urlparse(u).netloc` for the URLs this system
handles (absolute URLs; empty netloc when there is no scheme part). -/
def urlNetloc (u : String) : String :=
  match afterScheme u with
  | none => ""
  | some tail => (tail.takeWhile (fun c => c ≠ '/')).asString

/-- Model of `urllib.parse.urlparse(u).path` for the same URL shapes. -/
def urlPath (u : String) : String :=
  match afterScheme u with
  | none => u
  | some tail => (tail.dropWhile (fun c => c ≠ '/')).asString

/-- Structured output of the in-page GitHub comment-collection script. -/
structure GhData where
  title : String
  mainBody : String
  comments : List String
deriving Repr

/-- Output of `_extract_readability` (title plus flattened text); the
readability library and HTML flattening are external to the repository. -/
structure RbOut where
  title : Option String
  text : String
deriving Repr

/-- One element of the in-page main-block evaluation result
(`{text, len, ld}`; the JS side already filtered by length ≥ 180 and
sorted by `len/(1+2·ld)`). -/
structure MBCand where
  text : String
  len : ℕ
  ld : ℚ
deriving Repr

/-- Outcomes of the external page operations during one
`crawl_page_content` call, one field per `await` site. -/
structure CrawlEnv where
  newPageOk : Bool := true
  goto : Option String := none
  scroll : Option String := none
  finalUrl : String := ""
  githubEval : Except String GhData := .ok ⟨"", "", []⟩
  selectorOutcomes : List (Option String) := []
  mainEval : Except String (List MBCand) := .ok []
  readability : Except String RbOut := .ok ⟨none, ""⟩
  bodyEval : Except String String := .ok ""
  closeOk : Bool := true

/-- Python tail of `_extract_github_issue` assembling title, main body and
up to the filtered comments from the in-page evaluation result. -/
def extract_github_issue (gh : GhData) (maxChars : Nat) : String :=
  let parts :=
    (if gh.title ≠ "" then [pyStrip gh.title] else []) ++
    (if gh.mainBody ≠ "" then [pyStrip gh.mainBody] else []) ++
    ((gh.comments.enum.filterMap fun ic =>
      if ic.2 = "" then none
      else
        let c := pyStrip ic.2
        if c.length < 30 then none
        else some ("--- Comment " ++ toString (ic.1 + 1) ++ " ---\n" ++ c)))
  let text := pyStrip (String.intercalate "\n\n" (parts.filter (fun p => p ≠ "")))
  normalize_text text maxChars

/-- Source `_extract_by_selectors` over the per-selector page outcomes
(`none` = locator count 0 or a swallowed per-selector exception): accept
the first normalized text of length ≥ 200. -/
def extract_by_selectors (outs : List (Option String)) (maxChars : Nat) : String :=
  match outs with
  | [] => ""
  | none :: rest => extract_by_selectors rest maxChars
  | some raw :: rest =>
    let txt := normalize_text raw maxChars
    if txt.length ≥ 200 then txt else extract_by_selectors rest maxChars

/-- Python tail of `_extract_main_block`: over the first 25 in-page
candidates, drop link density > 0.45, re-score by
`_score_text(t) - ld*80`, keep the strictly best (initial best is
`("", 0.0)`). -/
def extract_main_block (cands : List MBCand) (maxChars : Nat) : String :=
  ((cands.take 25).foldl (fun best c =>
    if c.ld > 0.45 then best
    else
      let t := normalize_text c.text maxChars
      let s := score_text t - c.ld * 80
      if s > best.2 then (t, s) else best) ("", (0 : ℚ))).1

/-- Error-path `PageResult` built by the `except Exception` handler of
`crawl_page_content` (the `error` field carries the exception description,
modelling `repr(e)`). -/
def errorPageResult (item : Hit) (e : String) : PageResult :=
  { engine := some item.engine, url := some item.url, final_url := none,
    title := some item.title, page_title := none, method := none,
    score := none, text := "", candidates := none, error := some e }

/-- GitHub issue/PR special path of `crawl_page_content`: host suffix and
path test, extraction failure swallowed by the inner `try`, candidate kept
only when the text is non-empty of length ≥ 160. -/
def githubCandidates (env : CrawlEnv) (maxChars : Nat) : List (String × String) :=
  if pyEndsWith (pyToLower (urlNetloc env.finalUrl)) "github.com" ∧
      (containsSub (pyToLower (urlPath env.finalUrl)) "/issues/" ∨
       containsSub (pyToLower (urlPath env.finalUrl)) "/pull/") then
    match env.githubEval with
    | .ok gh =>
      let tG := extract_github_issue gh maxChars
      if tG ≠ "" ∧ tG.length ≥ 160 then [("github_issue", tG)] else []
    | .error _ => []
  else []

/-- Navigation and scroll steps of the `try` block (`page.goto`, the
sleeps and never-raising best-effort waits, and the scroll `evaluate`
guarded by `do_scroll`). -/
def navPhase (env : CrawlEnv) (doScroll : Bool) : Except String Unit :=
  match env.goto with
  | some e => .error e
  | none =>
    if doScroll then
      match env.scroll with
      | some e => .error e
      | none => .ok ()
    else .ok ()

/-- Candidate lists of the four primary extraction strategies of the
`try` block, concatenated in source order: GitHub special path, selector
strategy, main-block heuristic, readability. -/
def strategyCands (env : CrawlEnv) (maxChars : Nat) (mcs : List MBCand)
    (rb : RbOut) : List (String × String) :=
  let cands0 := githubCandidates env maxChars
  let tA := extract_by_selectors env.selectorOutcomes maxChars
  let cands1 := cands0 ++ (if tA ≠ "" then [("selectors", tA)] else [])
  let tC := extract_main_block mcs maxChars
  let cands2 := cands1 ++ (if tC ≠ "" then [("main_block", tC)] else [])
  cands2 ++ (if rb.text ≠ "" then [("readability", rb.text)] else [])

/-- Candidate collection with the two fallible `await` results
(main-block `evaluate` and `page.content`/readability) exposed, and the
body fallback used only when `strategyCands` is empty. -/
def candidatePhase (env : CrawlEnv) (maxChars : Nat) :
    Except String (List (String × String) × RbOut) :=
  match env.mainEval with
  | .error e => .error e
  | .ok mcs =>
    match env.readability with
    | .error e => .error e
    | .ok rb =>
      if strategyCands env maxChars mcs rb = [] then
        match env.bodyEval with
        | .error e => .error e
        | .ok raw =>
          let b := normalize_text raw maxChars
          .ok ((if b ≠ "" then [("body", b)] else []), rb)
      else .ok (strategyCands env maxChars mcs rb, rb)

/-- Scoring, sorting and winner selection of the `try` block
(`scored.sort(...); best = scored[0]`; the empty subscript raises
`IndexError`, caught like any other exception by the handler). -/
def selectAndBuild (item : Hit) (finalUrl : String) (rb : RbOut)
    (cands : List (String × String)) (maxChars : Nat) :
    Except String PageResult :=
  match sortScoredDesc (weightCandidates cands) with
  | [] => .error "IndexError(list index out of range)"
  | best :: rest =>
    .ok { engine := some item.engine, url := some item.url,
          final_url := some finalUrl, title := some item.title,
          page_title := rb.title, method := some best.1,
          score := some best.2.1,
          text := normalize_text best.2.2 maxChars,
          candidates := some ((best :: rest).map fun s =>
            { method := s.1, score := s.2.1, len := s.2.2.length }),
          error := none }

/-- Body of the `try` block of `crawl_page_content`.  A thrown error
models an uncaught Python exception reaching the `except Exception`
handler. -/
def crawlTryBody (env : CrawlEnv) (item : Hit) (maxChars : Nat)
    (doScroll : Bool) : Except String PageResult :=
  match navPhase env doScroll with
  | .error e => .error e
  | .ok _ =>
    match candidatePhase env maxChars with
    | .error e => .error e
    | .ok crb => selectAndBuild item env.finalUrl crb.2 crb.1 maxChars

/-- Source `crawl_page_content`: `new_page` (outside the `try`), the
`try/except Exception` containment, and the `finally: page.close()`. -/
def crawl_page_content (env : CrawlEnv) (item : Hit) (maxChars : Nat := 10000)
    (doScroll : Bool := true) : Except String PageResult :=
  if ¬ env.newPageOk then .error "new_page failed"
  else
    let result := match crawlTryBody env item maxChars doScroll with
      | .ok r => r
      | .error e => errorPageResult item e
    if env.closeOk then .ok result else .error "page close failed"

/-- Crawl stage of `tools._web_search`: one `crawl_page_content` task per
hit, `asyncio.gather(..., return_exceptions=True)`, results that are
exceptions dropped, surviving texts passed through `clean_page_text`. -/
def webSearchCrawlStage (jobs : List (CrawlEnv × Hit)) (maxChars : Nat)
    (doScroll : Bool) : List PageResult :=
  (jobs.map fun j => crawl_page_content j.1 j.2 maxChars doScroll).filterMap
    fun r =>
      match r with
      | .ok p => some { p with text := clean_page_text p.text }
      | .error _ => none

/-! ## Result aggregation and deduplication -/

/-- Aggregator key `str(p.final_url or p.url)` from `tools._web_search`
(pydantic `HttpUrl` values are never empty strings, so truthiness is
`Option` presence; `str(None)` is the literal string `"None"`). -/
def pageKey (p : PageResult) : String :=
  match p.final_url with
  | some f => f
  | none => match p.url with
    | some u => u
    | none => "None"

/-- Shared shape of the two dedup loops (`seen`-set fold preserving
first-seen order); `keep` models the truthiness guard of the dispatcher
loop. -/
def dedupAux (key : α → String) (keep : α → Bool) (seen : List String) :
    List α → List α
  | [] => []
  | x :: rest =>
    if keep x ∧ key x ∉ seen then
      x :: dedupAux key keep (key x :: seen) rest
    else
      dedupAux key keep seen rest

/-- Dispatcher dedup loop of `multi_search_with_context`
(`if u and u not in seen`). -/
def dedupeByUrl (l : List Hit) : List Hit :=
  dedupAux (fun h => h.url) (fun h => h.url ≠ "") [] l

/-- Aggregator dedup loop of `tools._web_search`
(`if url not in seen_urls`). -/
def dedupePages (l : List PageResult) : List PageResult :=
  dedupAux pageKey (fun _ => true) [] l

/-! ## Engine dispatcher (`search_engines.py`) -/

/-- Source `Engine` dataclass (the `build_url` lambda and the post-goto
hooks only drive external navigation and sleeps, with their own swallowed
exceptions, so they carry no modelled behaviour). -/
structure Engine where
  name : String
  result_selector : String
  clean_title : Option (String → String) := none
  wait_ms_after_nav : Nat := 1200
  extra_wait_ms : Nat := 0
  keep_tab_open : Bool := true

/-- Bing entry of the source `ENGINES` registry. -/
def bingEngine : Engine :=
  { name := "bing", result_selector := "li.b_algo h2 a",
    clean_title := some default_clean_title,
    wait_ms_after_nav := 2202, extra_wait_ms := 800 }

/-- DuckDuckGo entry of the source `ENGINES` registry. -/
def duckduckgoEngine : Engine :=
  { name := "duckduckgo", result_selector := "a[data-testid='result-title-a']",
    clean_title := some default_clean_title,
    wait_ms_after_nav := 1344 }

/-- Baidu entry of the source `ENGINES` registry. -/
def baiduEngine : Engine :=
  { name := "baidu",
    result_selector := "div#content_left h3 a, div#content_left a",
    clean_title := some default_clean_title,
    wait_ms_after_nav := 1500, extra_wait_ms := 1200 }

/-- Source `ENGINES` registry. -/
def ENGINES : List Engine := [bingEngine, duckduckgoEngine, baiduEngine]

/-- Outcome of one result-anchor read in `extract_results`: the locator
calls raised (skipped by the `except`), or produced a title/href pair
(empty string models a falsy value, skipped by the `if not title or not
href` guard). -/
inductive ItemOutcome
  | raised
  | got (title href : String)

/-- Outcomes of the external page operations during one `fetch_engine`
task.  `bringToFrontFails` is only reachable when `isCaptcha` holds;
`captchaTimesOut` is contained by the source's `except TimeoutError`, and
`state_manager.save_context_state` never raises. -/
structure FetchEnv where
  gotoFails : Bool := false
  isCaptcha : Bool := false
  bringToFrontFails : Bool := false
  captchaTimesOut : Bool := false
  countFails : Bool := false
  items : List ItemOutcome := []

/-- Source `extract_results`: a failing `loc.count()` yields `[]`; each of
the first `min(count, top_k)` anchors contributes `(title.strip(), href)`
unless its reads raised or title/href is falsy. -/
def extract_results (env : FetchEnv) (topK : Nat) : List (String × String) :=
  if env.countFails then []
  else
    (env.items.take (min env.items.length topK)).filterMap fun it =>
      match it with
      | .raised => none
      | .got t u => if t = "" ∨ u = "" then none else some (pyStrip t, u)

/-- Holds when the `fetch_engine` task raises no uncaught exception: its
`try` has a `finally` but no `except`, so `page.goto` failures — and
`page.bring_to_front()` failures on the CAPTCHA path — propagate. -/
def taskSucceeds (env : FetchEnv) : Bool :=
  !env.gotoFails && !(env.isCaptcha && env.bringToFrontFails)

/-- Source `fetch_engine`: either an uncaught exception or the list of hit
dictionaries built from `extract_results`. -/
def fetch_engine (env : FetchEnv) (eng : Engine) (topK : Nat) :
    Except String (List Hit) :=
  if env.gotoFails then .error "Exception(page.goto failed)"
  else if env.isCaptcha ∧ env.bringToFrontFails then
    .error "Exception(page.bring_to_front failed)"
  else
    .ok ((extract_results env topK).map fun tu =>
      { engine := eng.name,
        title := match eng.clean_title with
          | some f => f tu.1
          | none => tu.1,
        url := tu.2 })

/-- Model of `asyncio.gather(*tasks)` without `return_exceptions`: the
first failed task's exception propagates, otherwise the result lists are
concatenated in submission order. -/
def gatherResults : List (Except String (List Hit)) → Except String (List Hit)
  | [] => .ok []
  | .error e :: _ => .error e
  | .ok xs :: rest =>
    match gatherResults rest with
    | .error e => .error e
    | .ok ys => .ok (xs ++ ys)

/-- Source `multi_search_with_context`: engine-name resolution, the
empty-selection `ValueError`, the gather, and URL deduplication. -/
def multi_search_with_context (envs : String → FetchEnv)
    (engines : Option (List String)) (topK : Nat) : Except String (List Hit) :=
  let chosen := engines.map (fun es => es.map pyToLower)
  let engineList := ENGINES.filter fun e =>
    match chosen with
    | none => true
    | some c => c.contains e.name
  if engineList.isEmpty then .error "ValueError(No engines selected.)"
  else
    match gatherResults (engineList.map fun e =>
        fetch_engine (envs e.name) e topK) with
    | .error e => .error e
    | .ok results => .ok (dedupeByUrl results)

/-! ## CAPTCHA coordination protocol (locks in `fetch_engine`)

The acquire/release behaviour of the two global locks is modelled by a
trace monad: a computation appends lock events and may carry an
exception.  Python control structures map to combinators: `async with`
releases on both exit paths, `try/finally` always runs the finaliser,
`except TimeoutError` catches exactly the timeout. -/

/-- Lock events on `captcha_pause_lock` (pause) and `captcha_lock`
(resolution). -/
inductive LockEv
  | acquirePause
  | acquireRes
  | releasePause
  | releaseRes
deriving DecidableEq, Repr

/-- Trace-plus-exception computations over lock events. -/
def LockM (α : Type) := List LockEv → List LockEv × Except String α

instance : Monad LockM where
  pure a := fun tr => (tr, .ok a)
  bind m f := fun tr =>
    match m tr with
    | (tr1, .ok a) => f a tr1
    | (tr1, .error e) => (tr1, .error e)

/-- Record one lock event. -/
def emitEv (e : LockEv) : LockM Unit := fun tr => (tr ++ [e], .ok ())

/-- Raise an exception inside the trace monad. -/
def throwEv (s : String) : LockM α := fun tr => (tr, .error s)

/-- Python `async with`: acquire, run the body, release on both normal and
exceptional exit, then re-raise. -/
def scopedLock (acq rel : LockEv) (body : LockM α) : LockM α := fun tr =>
  let (tr1, r) := body (tr ++ [acq])
  (tr1 ++ [rel], r)

/-- Python `try/finally` whose finaliser is a pure lock release (never
raises). -/
def tryFinallyEv (body : LockM α) (fin : LockM Unit) : LockM α := fun tr =>
  let (tr1, r) := body tr
  let (tr2, _) := fin tr1
  (tr2, r)

/-- Python `except TimeoutError: pass` around the body. -/
def catchTimeoutEv (body : LockM Unit) : LockM Unit := fun tr =>
  match body tr with
  | (tr1, .error e) =>
    if e = "TimeoutError" then (tr1, .ok ()) else (tr1, .error e)
  | ok => ok

/-- External outcomes inside the CAPTCHA critical section:
`page.bring_to_front()` may raise (it sits between the lock acquisition
and the inner `try`), and `wait_for_captcha_resolution` either returns or
raises `TimeoutError` (its only failure mode; `save_context_state`
catches all its own exceptions). -/
structure CaptchaEnv where
  bringToFrontFails : Bool := false
  timesOut : Bool := false

/-- CAPTCHA-handling block of `fetch_engine`, lines 133–152 of
`search_engines.py`:
`captcha_pause_lock.acquire()` (direct), `async with captcha_lock`,
`bring_to_front`, then `try: wait_for_captcha_resolution / save state
except TimeoutError: pass finally: captcha_pause_lock.release()`. -/
def captchaSection (env : CaptchaEnv) : LockM Unit := do
  emitEv .acquirePause
  scopedLock .acquireRes .releaseRes (do
    (if env.bringToFrontFails then throwEv "PageError(bring_to_front)"
     else pure ())
    tryFinallyEv
      (catchTimeoutEv
        (if env.timesOut then throwEv "TimeoutError" else pure ()))
      (emitEv .releasePause))

/-- Trace of lock events produced by one run of the CAPTCHA block. -/
def captchaTrace (env : CaptchaEnv) : List LockEv :=
  (captchaSection env []).1

/-- Outcome (normal or exceptional) of one run of the CAPTCHA block. -/
def captchaOutcome (env : CaptchaEnv) : Except String Unit :=
  (captchaSection env []).2

/-- Reading of the claim "every exit releases resolutionLock first and
then releases pauseLock": in the trace, `releaseRes` occurs and every
occurrence of `releasePause` comes after it. -/
def releasesResThenPause (tr : List LockEv) : Bool :=
  (tr.contains .releaseRes) &&
    match tr.indexOf? LockEv.releasePause, tr.indexOf? LockEv.releaseRes with
    | some ip, some ir => decide (ir < ip)
    | _, _ => true

/-! ## Browser-state cache (`state_cache.StateCacheManager`)

Timestamps are integers (`datetime.now()` at call time is the `now`
parameter); a metadata entry's `expires_at` is `none` when the stored
field is missing or fails `datetime.fromisoformat`.  The filesystem is a
pair of association lists: `files` maps an engine's state-file name to
its parsed content (`none` = corrupt JSON), `metadata` is the parsed
shared metadata file.  I/O itself is modelled as succeeding; corruption
is content-level. -/

/-- One cookie of a Playwright storage state (fields other than the
domain are opaque). -/
structure Cookie where
  domain : String
  payload : String
deriving DecidableEq, Repr

/-- One origin entry of a storage state. -/
structure OriginEntry where
  origin : String
  payload : String
deriving DecidableEq, Repr

/-- Playwright `storage_state` dictionary. -/
structure StorageState where
  cookies : List Cookie
  origins : List OriginEntry
deriving DecidableEq, Repr

/-- One engine's entry in `metadata.json`. -/
structure MetaEntry where
  created_at : Int
  expires_at : Option Int
  last_used : Int
deriving DecidableEq, Repr

/-- On-disk cache state: per-engine state files and the shared metadata. -/
structure CacheFS where
  files : List (String × Option StorageState)
  metadata : List (String × MetaEntry)
deriving Repr

/-- Association-list lookup (`dict` access keyed by engine name). -/
def alookup (k : String) : List (String × α) → Option α
  | [] => none
  | p :: rest => if p.1 = k then some p.2 else alookup k rest

/-- Association-list key removal (`dict.pop(k, None)` / file unlink). -/
def aremove (k : String) (l : List (String × α)) : List (String × α) :=
  l.filter fun p => p.1 ≠ k

/-- Association-list key update (`dict[k] = v` / file write). -/
def aset (k : String) (v : α) (l : List (String × α)) : List (String × α) :=
  (k, v) :: aremove k l

/-- Source `ENGINE_DOMAINS` whitelist. -/
def ENGINE_DOMAINS : List (String × List String) :=
  [("bing", ["bing.com", "www.bing.com"]),
   ("duckduckgo", ["duckduckgo.com", "www.duckduckgo.com"]),
   ("baidu", ["baidu.com", "www.baidu.com"]),
   ("yandex", ["yandex.com", "yandex.ru", "www.yandex.com", "www.yandex.ru"])]

/-- Source `_is_expired`: missing or unparsable `expires_at` counts as
expired, otherwise expired iff `datetime.now() > expires_at`. -/
def is_expired (entry : MetaEntry) (now : Int) : Bool :=
  match entry.expires_at with
  | none => true
  | some t => now > t

/-- Source `is_state_valid`: the metadata entry exists, the state file
exists, and the entry is not expired. -/
def is_state_valid (fs : CacheFS) (now : Int) (engine : String) : Bool :=
  match alookup engine fs.metadata with
  | none => false
  | some entry =>
    match alookup engine fs.files with
    | none => false
    | some _ => ¬ is_expired entry now

/-- Source `invalidate_state`: delete the state file if present, drop the
metadata entry, rewrite the metadata file. -/
def invalidate_state (fs : CacheFS) (engine : String) : CacheFS :=
  { files := aremove engine fs.files, metadata := aremove engine fs.metadata }

/-- Source `load_state`: invalid entries are invalidated and yield `None`;
a corrupt state file (caught `JSONDecodeError`) likewise; otherwise the
parsed state is returned and `last_used` is refreshed. -/
def load_state (fs : CacheFS) (now : Int) (engine : String) :
    Option StorageState × CacheFS :=
  if ¬ is_state_valid fs now engine then
    (none, invalidate_state fs engine)
  else
    match alookup engine fs.files with
    | none => (none, invalidate_state fs engine)
    | some none => (none, invalidate_state fs engine)
    | some (some st) =>
      match alookup engine fs.metadata with
      | none => (none, invalidate_state fs engine)
      | some entry =>
        let touched := { entry with last_used := now }
        (some st, { fs with metadata := aset engine touched fs.metadata })

/-- Cookie whitelist test of `save_state`:
`domain == ad or domain.endswith("." + ad)` after `lstrip('.')`. -/
def cookie_allowed (allowed : List String) (c : Cookie) : Bool :=
  let domain := pyLstripDots c.domain
  allowed.any fun ad => domain = ad ∨ pyEndsWith domain ("." ++ ad)

/-- Origin whitelist test of `save_state`:
exact match against `https://ad` or `http://ad`. -/
def origin_allowed (allowed : List String) (o : OriginEntry) : Bool :=
  allowed.any fun ad =>
    o.origin = "https://" ++ ad ∨ o.origin = "http://" ++ ad

/-- Domain filtering of `save_state` for one engine. -/
def filter_state (engine : String) (st : StorageState) : StorageState :=
  let allowed := (alookup engine ENGINE_DOMAINS).getD []
  { cookies := st.cookies.filter (cookie_allowed allowed),
    origins := st.origins.filter (origin_allowed allowed) }

/-- Source `save_state`: write the filtered state file, then set the
engine's metadata entry to `created_at = now`, `expires_at = now + ttl`,
`last_used = now`. -/
def save_state (fs : CacheFS) (now ttl : Int) (engine : String)
    (st : StorageState) : CacheFS :=
  { files := aset engine (some (filter_state engine st)) fs.files,
    metadata := aset engine
      { created_at := now, expires_at := some (now + ttl), last_used := now }
      fs.metadata }

/-- Validity condition exactly as the claim words it ("valid iff its state
file exists AND now < expiresAt"), for comparison with `is_state_valid`. -/
def claimStrictValid (fs : CacheFS) (now : Int) (engine : String) : Bool :=
  (alookup engine fs.files).isSome &&
    match (alookup engine fs.metadata).bind MetaEntry.expires_at with
    | some t => decide (now < t)
    | none => false

/-! ## Helper lemmas: stable descending sort -/

theorem mem_insertScoredDesc {x y : Scored} {l : List Scored}
    (h : y ∈ insertScoredDesc x l) : y = x ∨ y ∈ l := by
  induction l with
  | nil => simpa [insertScoredDesc] using h
  | cons z zs ih =>
    unfold insertScoredDesc at h
    by_cases hc : x.2.1 > z.2.1
    · rw [if_pos hc] at h
      simp only [List.mem_cons] at h ⊢
      tauto
    · rw [if_neg hc] at h
      simp only [List.mem_cons] at h ⊢
      rcases h with h | h
      · tauto
      · rcases ih h with h2 | h2 <;> tauto

theorem length_insertScoredDesc (x : Scored) (l : List Scored) :
    (insertScoredDesc x l).length = l.length + 1 := by
  induction l with
  | nil => rfl
  | cons z zs ih =>
    unfold insertScoredDesc
    split <;> simp [ih]

/-- Descending order on weighted scores. -/
def scoreGE (a b : Scored) : Prop := b.2.1 ≤ a.2.1

theorem pairwise_insertScoredDesc {x : Scored} {l : List Scored}
    (h : l.Pairwise scoreGE) : (insertScoredDesc x l).Pairwise scoreGE := by
  induction l with
  | nil => simp [insertScoredDesc, List.pairwise_singleton]
  | cons z zs ih =>
    unfold insertScoredDesc
    rcases List.pairwise_cons.mp h with ⟨hz, hzs⟩
    by_cases hc : x.2.1 > z.2.1
    · rw [if_pos hc]
      refine List.pairwise_cons.mpr ⟨?_, h⟩
      intro y hy
      simp only [List.mem_cons] at hy
      rcases hy with hy | hy
      · subst hy; exact le_of_lt hc
      · exact le_trans (hz y hy) (le_of_lt hc)
    · rw [if_neg hc]
      refine List.pairwise_cons.mpr ⟨?_, ih hzs⟩
      intro y hy
      rcases mem_insertScoredDesc hy with hy | hy
      · subst hy; exact le_of_not_lt hc
      · exact hz y hy

theorem sortScoredDesc_spec (l : List Scored) :
    (sortScoredDesc l).Pairwise scoreGE ∧
      (∀ y ∈ sortScoredDesc l, y ∈ l) ∧
      (sortScoredDesc l).length = l.length := by
  suffices h : ∀ acc : List Scored, acc.Pairwise scoreGE →
      (l.foldl (fun a x => insertScoredDesc x a) acc).Pairwise scoreGE ∧
      (∀ y ∈ l.foldl (fun a x => insertScoredDesc x a) acc, y ∈ acc ∨ y ∈ l) ∧
      (l.foldl (fun a x => insertScoredDesc x a) acc).length =
        acc.length + l.length by
    have h' := h [] List.Pairwise.nil
    refine ⟨h'.1, fun y hy => ?_, by simpa using h'.2.2⟩
    rcases h'.2.1 y hy with hy | hy
    · simp at hy
    · exact hy
  induction l with
  | nil =>
    intro acc hacc
    exact ⟨hacc, fun y hy => Or.inl hy, by simp⟩
  | cons x xs ih =>
    intro acc hacc
    have hstep := ih (insertScoredDesc x acc) (pairwise_insertScoredDesc hacc)
    refine ⟨hstep.1, fun y hy => ?_, ?_⟩
    · rcases hstep.2.1 y hy with hy | hy
      · rcases mem_insertScoredDesc hy with hy | hy
        · exact Or.inr (by simp [hy])
        · exact Or.inl hy
      · exact Or.inr (by simp [hy])
    · simp only [List.foldl_cons, hstep.2.2, length_insertScoredDesc, List.length_cons]
      omega

theorem sortScoredDesc_head_max {l : List Scored} {best : Scored}
    {rest : List Scored} (h : sortScoredDesc l = best :: rest) :
    ∀ y ∈ sortScoredDesc l, y.2.1 ≤ best.2.1 := by
  intro y hy
  have hpw := (sortScoredDesc_spec l).1
  rw [h] at hpw hy
  simp only [List.mem_cons] at hy
  rcases hy with hy | hy
  · subst hy; exact le_refl _
  · exact (List.pairwise_cons.mp hpw).1 y hy

theorem sortScoredDesc_ne_nil {l : List Scored} (h : l ≠ []) :
    sortScoredDesc l ≠ [] := by
  intro hnil
  have h2 := (sortScoredDesc_spec l).2.2
  rw [hnil] at h2
  exact h (List.length_eq_zero.mp h2.symm)

section Dedup
variable {α : Type} (key : α → String) (keep : α → Bool)

theorem dedupAux_sublist (seen : List String) (l : List α) :
    (dedupAux key keep seen l).Sublist l := by
  induction l generalizing seen with
  | nil => simp [dedupAux]
  | cons x rest ih =>
    unfold dedupAux
    split
    · exact (ih _).cons₂ x
    · exact (ih _).cons x

theorem mem_dedupAux {seen : List String} {l : List α} {x : α}
    (h : x ∈ dedupAux key keep seen l) :
    x ∈ l ∧ keep x = true ∧ key x ∉ seen := by
  induction l generalizing seen with
  | nil => simp [dedupAux] at h
  | cons y rest ih =>
    unfold dedupAux at h
    by_cases hg : keep y = true ∧ key y ∉ seen
    · rw [if_pos hg] at h
      simp only [List.mem_cons] at h
      rcases h with h | h
      · subst h
        exact ⟨by simp, hg.1, hg.2⟩
      · rcases ih h with ⟨h1, h2, h3⟩
        exact ⟨by simp [h1], h2, fun hs => h3 (by simp [hs])⟩
    · rw [if_neg hg] at h
      rcases ih h with ⟨h1, h2, h3⟩
      exact ⟨by simp [h1], h2, h3⟩

theorem dedupAux_keys_nodup (seen : List String) (l : List α) :
    ((dedupAux key keep seen l).map key).Nodup := by
  induction l generalizing seen with
  | nil => simp [dedupAux]
  | cons x rest ih =>
    unfold dedupAux
    split
    · rw [List.map_cons]
      refine List.nodup_cons.mpr ⟨?_, ih _⟩
      intro hmem
      rcases List.mem_map.mp hmem with ⟨y, hy, hkey⟩
      have h3 := (mem_dedupAux key keep hy).2.2
      exact h3 (by simp [hkey])
    · exact ih _

theorem dedupAux_fixed {m : List α} {seen : List String}
    (hkeep : ∀ x ∈ m, keep x = true) (hnd : (m.map key).Nodup)
    (hseen : ∀ x ∈ m, key x ∉ seen) :
    dedupAux key keep seen m = m := by
  induction m generalizing seen with
  | nil => rfl
  | cons x rest ih =>
    simp only [List.map_cons, List.nodup_cons] at hnd
    unfold dedupAux
    rw [if_pos ⟨hkeep x (by simp), hseen x (by simp)⟩]
    congr 1
    refine ih (fun y hy => hkeep y (by simp [hy])) hnd.2 (fun y hy hsy => ?_)
    rcases List.mem_cons.mp hsy with hsy | hsy
    · exact hnd.1 (List.mem_map.mpr ⟨y, hy, hsy⟩)
    · exact hseen y (by simp [hy]) hsy

theorem dedupAux_idem (l : List α) :
    dedupAux key keep [] (dedupAux key keep [] l) = dedupAux key keep [] l := by
  refine dedupAux_fixed key keep ?_ (dedupAux_keys_nodup key keep [] l) ?_
  · exact fun x hx => (mem_dedupAux key keep hx).2.1
  · intro x _ hx
    simp at hx

theorem dedupAux_first_seen {seen : List String} {l : List α}
    {x : α} (hcong : ∀ a b, key a = key b → keep a = keep b)
    (h : x ∈ dedupAux key keep seen l) :
    l.find? (fun y => key y == key x) = some x := by
  induction l generalizing seen with
  | nil => simp [dedupAux] at h
  | cons y rest ih =>
    unfold dedupAux at h
    by_cases hg : keep y = true ∧ key y ∉ seen
    · rw [if_pos hg] at h
      simp only [List.mem_cons] at h
      rcases h with h | h
      · subst h
        exact List.find?_cons_of_pos _ (by simp)
      · have hx := mem_dedupAux key keep h
        have hne : key y ≠ key x := by
          intro he
          exact hx.2.2 (by simp [← he])
        rw [List.find?_cons_of_neg _ (by simpa using hne)]
        exact ih h
    · rw [if_neg hg] at h
      have hx := mem_dedupAux key keep h
      have hne : key y ≠ key x := by
        intro he
        have hky : keep y = true := by rw [hcong y x he]; exact hx.2.1
        have hin : key y ∈ seen := by
          by_contra hns
          exact hg ⟨hky, hns⟩
        exact hx.2.2 (he ▸ hin)
      rw [List.find?_cons_of_neg _ (by simpa using hne)]
      exact ih h

end Dedup

/-! ## Helper lemmas: association lists -/

theorem alookup_aset_self (k : String) (v : α) (l : List (String × α)) :
    alookup k (aset k v l) = some v := by
  simp [aset, alookup]

theorem alookup_aremove_self (k : String) (l : List (String × α)) :
    alookup k (aremove k l) = none := by
  induction l with
  | nil => rfl
  | cons p rest ih =>
    unfold aremove at ih ⊢
    by_cases hp : p.1 = k
    · simpa [List.filter, hp] using ih
    · simpa [List.filter, hp, alookup] using ih

/-! ## Helper lemmas: gather and dispatcher -/

theorem gatherResults_cons_ok (xs : List Hit)
    (rs : List (Except String (List Hit))) :
    gatherResults (.ok xs :: rs) =
      match gatherResults rs with
      | .error e => .error e
      | .ok ys => .ok (xs ++ ys) := rfl

theorem gatherResults_all_ok {β : Type} (es : List β)
    (f : β → Except String (List Hit)) (g : β → List Hit)
    (h : ∀ e ∈ es, f e = .ok (g e)) :
    gatherResults (es.map f) = .ok (es.map g).join := by
  induction es with
  | nil => rfl
  | cons e rest ih =>
    have he := h e (by simp)
    have ih' := ih (fun x hx => h x (by simp [hx]))
    simp [List.map_cons, he, gatherResults_cons_ok, ih', List.join]

theorem gatherResults_error {rs : List (Except String (List Hit))}
    {e : String} (h : Except.error e ∈ rs) :
    ∃ e', gatherResults rs = .error e' := by
  induction rs with
  | nil => simp at h
  | cons r rest ih =>
    rcases List.mem_cons.mp h with h | h
    · subst h
      exact ⟨e, rfl⟩
    · rcases ih h with ⟨e', he'⟩
      cases r with
      | error e2 => exact ⟨e2, rfl⟩
      | ok xs =>
        refine ⟨e', ?_⟩
        unfold gatherResults
        rw [he']

/-- List of engines selected by `multi_search_with_context` from the
requested names. -/
def selectedEngines (engines : Option (List String)) : List Engine :=
  ENGINES.filter fun e =>
    match engines.map (fun es => es.map pyToLower) with
    | none => true
    | some c => c.contains e.name

theorem multi_search_as_selected (envs : String → FetchEnv)
    (engines : Option (List String)) (topK : Nat) :
    multi_search_with_context envs engines topK =
      (if (selectedEngines engines).isEmpty then
        .error "ValueError(No engines selected.)"
      else
        match gatherResults ((selectedEngines engines).map fun e =>
            fetch_engine (envs e.name) e topK) with
        | .error e => .error e
        | .ok results => .ok (dedupeByUrl results)) := rfl

theorem fetch_engine_ok {env : FetchEnv} (eng : Engine) (topK : Nat)
    (h : taskSucceeds env = true) :
    fetch_engine env eng topK =
      .ok ((extract_results env topK).map fun tu =>
        { engine := eng.name,
          title := match eng.clean_title with
            | some f => f tu.1
            | none => tu.1,
          url := tu.2 }) := by
  unfold taskSucceeds at h
  rw [Bool.and_eq_true, Bool.not_eq_true', Bool.not_eq_true'] at h
  unfold fetch_engine
  rw [if_neg (by simp [h.1])]
  rw [if_neg (fun hc => by simp [hc.1, hc.2] at h)]

theorem fetch_engine_fails {env : FetchEnv} (eng : Engine) (topK : Nat)
    (h : taskSucceeds env = false) :
    ∃ e, fetch_engine env eng topK = .error e := by
  unfold taskSucceeds at h
  unfold fetch_engine
  by_cases hg : env.gotoFails = true
  · exact ⟨"Exception(page.goto failed)", by rw [if_pos hg]⟩
  · have hg' : env.gotoFails = false := by simpa using hg
    have hc : env.isCaptcha = true ∧ env.bringToFrontFails = true := by
      rw [hg'] at h
      simpa using h
    refine ⟨"Exception(page.bring_to_front failed)", ?_⟩
    rw [if_neg (by simp [hg']), if_pos hc]

/-! ## Helper lemmas: crawler -/

theorem crawl_page_content_eq {env : CrawlEnv} (item : Hit) (maxChars : Nat)
    (doScroll : Bool) (h1 : env.newPageOk = true) (h2 : env.closeOk = true) :
    crawl_page_content env item maxChars doScroll =
      .ok (match crawlTryBody env item maxChars doScroll with
           | .ok r => r
           | .error e => errorPageResult item e) := by
  unfold crawl_page_content
  rw [h1, h2]
  simp

/-- Method tags of the five extraction strategies. -/
def methodNames : List String :=
  ["github_issue", "selectors", "main_block", "readability", "body"]

theorem mem_of_mem_ite_nil {c : Prop} [Decidable c] {l : List α} {y : α}
    (h : y ∈ if c then l else []) : y ∈ l := by
  by_cases hc : c
  · rwa [if_pos hc] at h
  · rw [if_neg hc] at h
    simp at h

theorem mem_ite_singleton {c : Prop} [Decidable c] {x y : α}
    (h : y ∈ if c then [x] else []) : y = x :=
  List.mem_singleton.mp (mem_of_mem_ite_nil h)

theorem githubCandidates_tag {env : CrawlEnv} {maxChars : Nat}
    {mt : String × String} (h : mt ∈ githubCandidates env maxChars) :
    mt.1 = "github_issue" := by
  unfold githubCandidates at h
  have h1 := mem_of_mem_ite_nil h
  cases henv : env.githubEval with
  | ok gh =>
    rw [henv] at h1
    have h2 := mem_ite_singleton h1
    simp [h2]
  | error e =>
    rw [henv] at h1
    exact absurd h1 (List.not_mem_nil mt)

theorem strategyCands_tags {env : CrawlEnv} {maxChars : Nat}
    {mcs : List MBCand} {rb : RbOut} {mt : String × String}
    (h : mt ∈ strategyCands env maxChars mcs rb) : mt.1 ∈ methodNames := by
  unfold strategyCands at h
  rcases List.mem_append.mp h with h2 | h2
  · rcases List.mem_append.mp h2 with h3 | h3
    · rcases List.mem_append.mp h3 with h4 | h4
      · simp [githubCandidates_tag h4, methodNames]
      · simp [mem_ite_singleton h4, methodNames]
    · simp [mem_ite_singleton h3, methodNames]
  · simp [mem_ite_singleton h2, methodNames]

theorem candidatePhase_tags {env : CrawlEnv} {maxChars : Nat}
    {c : List (String × String) × RbOut}
    (h : candidatePhase env maxChars = .ok c) :
    ∀ mt ∈ c.1, mt.1 ∈ methodNames := by
  intro mt hmt
  unfold candidatePhase at h
  split at h
  · exact absurd h (by simp)
  · rename_i mcs hm
    split at h
    · exact absurd h (by simp)
    · rename_i rb hr
      by_cases hc : strategyCands env maxChars mcs rb = []
      · rw [if_pos hc] at h
        split at h
        · exact absurd h (by simp)
        · rename_i raw hb
          simp only [Except.ok.injEq] at h
          rw [← h] at hmt
          simp [mem_ite_singleton hmt, methodNames]
      · rw [if_neg hc] at h
        simp only [Except.ok.injEq] at h
        rw [← h] at hmt
        exact strategyCands_tags hmt


/-! ## Helper lemmas: success-path inversion for the crawler -/

theorem crawl_ok_success_shape {env : CrawlEnv} {item : Hit} {mc : Nat}
    {ds : Bool} {r : PageResult}
    (hok : crawl_page_content env item mc ds = .ok r)
    (herr : r.error = none) :
    ∃ crb best rest, candidatePhase env mc = .ok crb ∧
      sortScoredDesc (weightCandidates crb.1) = best :: rest ∧
      r.method = some best.1 ∧ r.score = some best.2.1 ∧
      r.candidates = some ((best :: rest).map fun s =>
        { method := s.1, score := s.2.1, len := s.2.2.length }) := by
  cases hnp : env.newPageOk with
  | false =>
    unfold crawl_page_content at hok
    rw [hnp] at hok
    simp at hok
  | true =>
    cases hcl : env.closeOk with
    | false =>
      unfold crawl_page_content at hok
      rw [hnp, hcl] at hok
      simp at hok
    | true =>
      rw [crawl_page_content_eq item mc ds hnp hcl] at hok
      simp only [Except.ok.injEq] at hok
      cases htb : crawlTryBody env item mc ds with
      | error e =>
        rw [htb] at hok
        rw [← hok] at herr
        simp [errorPageResult] at herr
      | ok rr =>
        rw [htb] at hok
        subst hok
        unfold crawlTryBody at htb
        split at htb
        · exact absurd htb (by simp)
        · split at htb
          · exact absurd htb (by simp)
          · rename_i crb hcp
            unfold selectAndBuild at htb
            split at htb
            · exact absurd htb (by simp)
            · rename_i best rest hs
              simp only [Except.ok.injEq] at htb
              rw [← htb]
              exact ⟨crb, best, rest, hcp, hs, rfl, rfl, rfl⟩


/-! ## Claim theorems -/

/-- C6: for every PageResult, `is_good` holds iff `error == null` and
`len(text) > 160` when `method == github_issue`, else `len(text) > 256`;
in particular goodness implies the absence of an error. -/
theorem claim_c6_is_good (r : PageResult) :
    (r.is_good = true ↔
      (r.error = none ∧
        if r.method = some "github_issue" then r.text.length > 160
        else r.text.length > 256)) ∧
    (r.is_good = true → r.error = none) := by
  constructor
  · unfold PageResult.is_good
    cases he : r.error with
    | some e => simp [he]
    | none =>
      by_cases hm : r.method = some "github_issue" <;> simp [he, hm]
  · intro hg
    unfold PageResult.is_good at hg
    cases he : r.error with
    | some e => rw [he] at hg; simp at hg
    | none => rfl

set_option maxRecDepth 8000 in
/-- Witness for C6 at a concrete good PageResult. -/
theorem claim_c6_witness :
    ({ text := String.mk (List.replicate 257 'a') } : PageResult).is_good
        = true ∧
      ({ text := String.mk (List.replicate 257 'a') } : PageResult).error
        = none :=
  ⟨by decide,
   (claim_c6_is_good { text := String.mk (List.replicate 257 'a') }).2
     (by decide)⟩

/-- C4 (amended): on every run of the CAPTCHA critical section that gets
past `bring_to_front`, `pauseLock` is released first — while
`resolutionLock` is still held — and then `resolutionLock` is released;
when `bring_to_front` raises, `resolutionLock` is released but
`pauseLock` is never released. -/
theorem claim_c4_lock_order (env : CaptchaEnv) :
    (env.bringToFrontFails = false →
      captchaTrace env =
        [.acquirePause, .acquireRes, .releasePause, .releaseRes]) ∧
    (env.bringToFrontFails = true →
      captchaTrace env = [.acquirePause, .acquireRes, .releaseRes] ∧
      (captchaTrace env).contains .releasePause = false ∧
      captchaOutcome env = .error "PageError(bring_to_front)") := by
  rcases env with ⟨btf, tmo⟩
  cases btf <;> cases tmo <;>
    refine ⟨fun h => ?_, fun h => ?_⟩ <;>
      first
        | exact absurd h (by decide)
        | rfl
        | exact ⟨rfl, rfl, rfl⟩

/-- Witness for C4 at the timeout run. -/
theorem claim_c4_witness :
    captchaTrace { bringToFrontFails := false, timesOut := true } =
      [.acquirePause, .acquireRes, .releasePause, .releaseRes] :=
  (claim_c4_lock_order
    { bringToFrontFails := false, timesOut := true }).1 rfl

/-- Counterexample for C4 as stated: on the successful run the trace
releases `pauseLock` before `releaseRes` (so `pauseLock` is released
while `resolutionLock` is held, refuting the claimed order), and on a
`bring_to_front` failure `pauseLock` is never released at all. -/
theorem claim_c4_counterexample :
    captchaTrace { bringToFrontFails := false, timesOut := false } =
      [.acquirePause, .acquireRes, .releasePause, .releaseRes] ∧
    releasesResThenPause
      (captchaTrace { bringToFrontFails := false, timesOut := false })
        = false ∧
    (captchaTrace { bringToFrontFails := true, timesOut := false }).contains
      .releasePause = false := by
  decide

/-- C9: both dedup loops (dispatcher by raw url with a truthiness guard,
aggregator by `final_url or url`) are idempotent, preserve first-seen
order (the output is an order-preserving sublist whose member for each
key is the first input element carrying that key), and their outputs
contain no two entries sharing a key. -/
theorem claim_c9_dedup (l : List Hit) (ps : List PageResult) :
    (dedupeByUrl (dedupeByUrl l) = dedupeByUrl l ∧
     (dedupeByUrl l).Sublist l ∧
     ((dedupeByUrl l).map (fun h : Hit => h.url)).Nodup ∧
     ∀ h ∈ dedupeByUrl l,
       l.find? (fun y : Hit => y.url == h.url) = some h) ∧
    (dedupePages (dedupePages ps) = dedupePages ps ∧
     (dedupePages ps).Sublist ps ∧
     ((dedupePages ps).map pageKey).Nodup ∧
     ∀ p ∈ dedupePages ps,
       ps.find? (fun q : PageResult => pageKey q == pageKey p) = some p) := by
  constructor
  · refine ⟨dedupAux_idem _ _ l, dedupAux_sublist _ _ [] l,
      dedupAux_keys_nodup _ _ [] l, fun h hm => ?_⟩
    exact dedupAux_first_seen (fun h : Hit => h.url)
      (fun h : Hit => h.url ≠ "") (fun a b hab => by simp only [hab]) hm
  · refine ⟨dedupAux_idem _ _ ps, dedupAux_sublist _ _ [] ps,
      dedupAux_keys_nodup _ _ [] ps, fun p hm => ?_⟩
    exact dedupAux_first_seen pageKey (fun _ => true) (fun a b _ => rfl) hm

/-- Witness for C9 at a concrete hit list with a duplicate and a falsy
URL. -/
theorem claim_c9_witness :
    (⟨"bing", "t1", "http://a"⟩ : Hit) ∈
        dedupeByUrl [⟨"bing", "t1", "http://a"⟩, ⟨"ddg", "t2", ""⟩,
          ⟨"ddg", "t3", "http://a"⟩, ⟨"ddg", "t4", "http://b"⟩] ∧
      List.find?
        (fun y : Hit => y.url == (⟨"bing", "t1", "http://a"⟩ : Hit).url)
        [⟨"bing", "t1", "http://a"⟩, ⟨"ddg", "t2", ""⟩,
          ⟨"ddg", "t3", "http://a"⟩, ⟨"ddg", "t4", "http://b"⟩] =
        some ⟨"bing", "t1", "http://a"⟩ :=
  ⟨by decide,
   (claim_c9_dedup [⟨"bing", "t1", "http://a"⟩, ⟨"ddg", "t2", ""⟩,
      ⟨"ddg", "t3", "http://a"⟩, ⟨"ddg", "t4", "http://b"⟩] []).1.2.2.2
     ⟨"bing", "t1", "http://a"⟩ (by decide)⟩

/-- C5 (amended): the scorer is monotonic non-decreasing in the length
input up to the 12000 clamp with the other formula inputs held equal, and
incrementing the noise-match count by one with the other formula inputs
held equal decreases the pre-floor formula value by exactly 12 (the
returned score is additionally floored at 0, and a literal keyword
occurrence also changes the length input and may match both pattern
groups). -/
theorem claim_c5_score (a b p li n s : ℕ) :
    (a ≤ b → b ≤ 12000 →
      score_from_stats a p li n s ≤ score_from_stats b p li n s) ∧
    raw_formula a p li (n + 1) s = raw_formula a p li n s - 12 := by
  constructor
  · intro hab hb
    unfold score_from_stats
    by_cases ha : a < 120
    · rw [if_pos ha]
      by_cases hb2 : b < 120
      · rw [if_pos hb2]
      · rw [if_neg hb2]
        exact le_max_right _ 0
    · rw [if_neg ha, if_neg (by omega)]
      refine max_le_max ?_ le_rfl
      unfold raw_formula
      have h1 : ((min a 12000 : ℕ) : ℚ) ≤ ((min b 12000 : ℕ) : ℚ) := by
        exact_mod_cast (by omega : min a 12000 ≤ min b 12000)
      linarith
  · unfold raw_formula
    push_cast
    ring

/-- Witness for C5 at concrete formula inputs. -/
theorem claim_c5_witness :
    (200 : ℕ) ≤ 300 ∧ (300 : ℕ) ≤ 12000 ∧
      score_from_stats 200 1 1 0 0 ≤ score_from_stats 300 1 1 0 0 ∧
      raw_formula 300 1 1 1 0 = raw_formula 300 1 1 0 0 - 12 :=
  ⟨by norm_num, by norm_num,
   (claim_c5_score 200 300 1 1 0 0).1 (by norm_num) (by norm_num),
   (claim_c5_score 300 0 1 1 0 0).2⟩

set_option maxRecDepth 16000 in
/-- Counterexample for C5 as stated: appending one occurrence of the
noise keyword `cookie` to a 120-character text does not decrease the
returned score by exactly 12 — the occurrence matches both pattern
groups (noise count rises by 2) and the score floors at 0. -/
theorem claim_c5_counterexample :
    noiseCount (String.mk (List.replicate 120 'a')) = 0 ∧
    noiseCount (String.mk (List.replicate 120 'a') ++ "cookie") = 2 ∧
    score_text (String.mk (List.replicate 120 'a')) = 99 / 20 ∧
    score_text (String.mk (List.replicate 120 'a') ++ "cookie") = 0 ∧
    score_text (String.mk (List.replicate 120 'a') ++ "cookie") ≠
      score_text (String.mk (List.replicate 120 'a')) - 12 := by
  have h0 : score_text (String.mk (List.replicate 120 'a')) =
      score_from_stats 120 1 1 0 0 := by
    unfold score_text
    rw [show (String.mk (List.replicate 120 'a')).length = 120 by decide,
      show countSub "\n\n" (String.mk (List.replicate 120 'a')) = 0 by decide,
      show countSub "\n" (String.mk (List.replicate 120 'a')) = 0 by decide,
      show noiseCount (String.mk (List.replicate 120 'a')) = 0 by decide,
      show shortLineCount (String.mk (List.replicate 120 'a')) = 0 by decide]
  have h1 : score_text (String.mk (List.replicate 120 'a') ++ "cookie") =
      score_from_stats 126 1 1 2 0 := by
    unfold score_text
    rw [show (String.mk (List.replicate 120 'a') ++ "cookie").length = 126
        by decide,
      show countSub "\n\n" (String.mk (List.replicate 120 'a') ++ "cookie") = 0
        by decide,
      show countSub "\n" (String.mk (List.replicate 120 'a') ++ "cookie") = 0
        by decide,
      show noiseCount (String.mk (List.replicate 120 'a') ++ "cookie") = 2
        by decide,
      show shortLineCount (String.mk (List.replicate 120 'a') ++ "cookie") = 0
        by decide]
  have e0 : score_from_stats 120 1 1 0 0 = 99 / 20 := by
    unfold score_from_stats
    rw [if_neg (by norm_num)]
    unfold raw_formula
    rw [show min (120 : ℕ) 12000 = 120 from rfl,
      show min (1 : ℕ) 60 = 1 from rfl, show min (1 : ℕ) 180 = 1 from rfl]
    rw [max_eq_left (by norm_num)]
    norm_num
  have e1 : score_from_stats 126 1 1 2 0 = 0 := by
    unfold score_from_stats
    rw [if_neg (by norm_num)]
    unfold raw_formula
    rw [show min (126 : ℕ) 12000 = 126 from rfl,
      show min (1 : ℕ) 60 = 1 from rfl, show min (1 : ℕ) 180 = 1 from rfl]
    rw [max_eq_right (by norm_num)]
  refine ⟨by decide, by decide, h0 ▸ e0, h1 ▸ e1, ?_⟩
  rw [h0, h1, e0, e1]
  norm_num


/-- Characterization of `is_state_valid`. -/
theorem is_state_valid_iff (fs : CacheFS) (now : Int) (e : String) :
    is_state_valid fs now e = true ↔
      ((alookup e fs.files).isSome ∧
        ∃ ent t, alookup e fs.metadata = some ent ∧
          ent.expires_at = some t ∧ now ≤ t) := by
  unfold is_state_valid is_expired
  cases hmd : alookup e fs.metadata with
  | none => simp
  | some ent =>
    cases hf : alookup e fs.files with
    | none => simp
    | some content =>
      cases hex : ent.expires_at with
      | none => simp [hex]
      | some t =>
        simp only [hex, decide_eq_true_eq, not_lt, gt_iff_lt,
          Option.isSome_some, true_and]
        constructor
        · intro hle
          exact ⟨ent, t, rfl, hex, hle⟩
        · rintro ⟨ent2, t2, hent2, hex2, hle⟩
          injection hent2 with hent2
          subst hent2
          rw [hex] at hex2
          injection hex2 with hex2
          omega

/-- C3 (amended): an entry is valid iff its metadata entry exists with a
well-formed `expires_at`, its state file exists, and `now ≤ expiresAt`
(the source counts an entry expired only when `now > expires_at`, so at
`now = expiresAt` it is still valid); an entry with `expiresAt` strictly
in the past is never returned by `load_state`; a load that finds the
entry invalid deletes the state file and the metadata entry, a subsequent
load finds nothing, and a corrupt state file is likewise invalidated.
The model is total, so no error reaches the caller. -/
theorem claim_c3_cache_validity (fs : CacheFS) (now : Int) (e : String) :
    (is_state_valid fs now e = true ↔
      ((alookup e fs.files).isSome ∧
        ∃ ent t, alookup e fs.metadata = some ent ∧
          ent.expires_at = some t ∧ now ≤ t)) ∧
    (∀ ent t, alookup e fs.metadata = some ent → ent.expires_at = some t →
      t < now → (load_state fs now e).1 = none) ∧
    (is_state_valid fs now e = false →
      load_state fs now e = (none, invalidate_state fs e)) ∧
    (alookup e (invalidate_state fs e).files = none ∧
     alookup e (invalidate_state fs e).metadata = none ∧
     (load_state (invalidate_state fs e) now e).1 = none) ∧
    (alookup e fs.files = some none →
      (load_state fs now e).1 = none ∧
      alookup e (load_state fs now e).2.files = none ∧
      alookup e (load_state fs now e).2.metadata = none) := by
  have hinv_files : alookup e (invalidate_state fs e).files = none :=
    alookup_aremove_self e fs.files
  have hinv_meta : alookup e (invalidate_state fs e).metadata = none :=
    alookup_aremove_self e fs.metadata
  have hvalid_inv : is_state_valid (invalidate_state fs e) now e = false := by
    unfold is_state_valid
    rw [hinv_meta]
  refine ⟨is_state_valid_iff fs now e, ?_, ?_, ?_, ?_⟩
  · intro ent t hmd hex hlt
    have hv : is_state_valid fs now e = false := by
      cases hb : is_state_valid fs now e with
      | false => rfl
      | true =>
        exfalso
        rcases (is_state_valid_iff fs now e).mp hb with
          ⟨hfl, ent2, t2, hent2, hex2, hle⟩
        rw [hmd] at hent2
        injection hent2 with hent2
        subst hent2
        rw [hex] at hex2
        injection hex2 with hex2
        omega
    unfold load_state
    rw [hv, if_pos (by simp)]
  · intro hv
    unfold load_state
    rw [hv, if_pos (by simp)]
  · refine ⟨hinv_files, hinv_meta, ?_⟩
    unfold load_state
    rw [hvalid_inv, if_pos (by simp)]
  · intro hcorrupt
    cases hv : is_state_valid fs now e with
    | false =>
      unfold load_state
      rw [hv, if_pos (by simp)]
      exact ⟨rfl, hinv_files, hinv_meta⟩
    | true =>
      unfold load_state
      rw [hv, if_neg (by simp), hcorrupt]
      exact ⟨rfl, hinv_files, hinv_meta⟩

/-- Witness for C3 at a concrete expired entry. -/
theorem claim_c3_witness :
    alookup "bing"
        (CacheFS.mk [("bing", some (⟨[], []⟩ : StorageState))]
          [("bing", ⟨0, some 100, 0⟩)]).metadata = some ⟨0, some 100, 0⟩ ∧
      (100 : Int) < 101 ∧
      (load_state
        (CacheFS.mk [("bing", some (⟨[], []⟩ : StorageState))]
          [("bing", ⟨0, some 100, 0⟩)]) 101 "bing").1 = none :=
  ⟨by decide, by decide,
   (claim_c3_cache_validity
      (CacheFS.mk [("bing", some (⟨[], []⟩ : StorageState))]
        [("bing", ⟨0, some 100, 0⟩)]) 101 "bing").2.1
     ⟨0, some 100, 0⟩ 100 (by decide) rfl (by decide)⟩

/-- Counterexample for C3 as stated: at `now = expiresAt` the entry fails
the claim's strict `now < expiresAt` validity condition, yet the source
counts it valid and `load_state` returns the state. -/
theorem claim_c3_counterexample :
    is_state_valid
        (CacheFS.mk [("bing", some (⟨[], []⟩ : StorageState))]
          [("bing", ⟨0, some 100, 0⟩)]) 100 "bing" = true ∧
      claimStrictValid
        (CacheFS.mk [("bing", some (⟨[], []⟩ : StorageState))]
          [("bing", ⟨0, some 100, 0⟩)]) 100 "bing" = false ∧
      (load_state
        (CacheFS.mk [("bing", some (⟨[], []⟩ : StorageState))]
          [("bing", ⟨0, some 100, 0⟩)]) 100 "bing").1 =
        some ⟨[], []⟩ := by
  refine ⟨by decide, by decide, by decide⟩

/-- C8: saving any storage state for an engine and immediately loading it
back yields exactly the whitelist-filtered state, every cookie of which
passes the engine's domain test and every origin of which is an exact
whitelist origin; non-whitelisted entries are not persisted. -/
theorem claim_c8_roundtrip (fs : CacheFS) (now ttl : Int) (e : String)
    (st : StorageState) (httl : 0 ≤ ttl) :
    (load_state (save_state fs now ttl e st) now e).1 =
      some (filter_state e st) ∧
    (∀ c ∈ (filter_state e st).cookies,
      cookie_allowed ((alookup e ENGINE_DOMAINS).getD []) c = true) ∧
    (∀ o ∈ (filter_state e st).origins,
      origin_allowed ((alookup e ENGINE_DOMAINS).getD []) o = true) := by
  have hmeta : alookup e (save_state fs now ttl e st).metadata =
      some ⟨now, some (now + ttl), now⟩ :=
    alookup_aset_self e _ fs.metadata
  have hfile : alookup e (save_state fs now ttl e st).files =
      some (some (filter_state e st)) :=
    alookup_aset_self e _ fs.files
  have hvalid : is_state_valid (save_state fs now ttl e st) now e = true :=
    (is_state_valid_iff _ _ _).mpr
      ⟨by rw [hfile]; rfl,
       (⟨now, some (now + ttl), now⟩ : MetaEntry), now + ttl, hmeta, rfl,
       by omega⟩
  refine ⟨?_, ?_, ?_⟩
  · unfold load_state
    rw [hvalid, if_neg (by simp), hfile, hmeta]
  · intro c hc
    exact (List.mem_filter.mp hc).2
  · intro o ho
    exact (List.mem_filter.mp ho).2

/-- Witness for C8 at a concrete state holding foreign entries. -/
theorem claim_c8_witness :
    (0 : Int) ≤ 7200 ∧
      (load_state
        (save_state (CacheFS.mk [] []) 50 7200 "bing"
          ⟨[⟨".bing.com", "c1"⟩, ⟨"evil.com", "c2"⟩],
           [⟨"https://www.bing.com", "o1"⟩, ⟨"https://evil.com", "o2"⟩]⟩)
        50 "bing").1 =
        some (filter_state "bing"
          ⟨[⟨".bing.com", "c1"⟩, ⟨"evil.com", "c2"⟩],
           [⟨"https://www.bing.com", "o1"⟩, ⟨"https://evil.com", "o2"⟩]⟩) :=
  ⟨by decide,
   (claim_c8_roundtrip (CacheFS.mk [] []) 50 7200 "bing"
      ⟨[⟨".bing.com", "c1"⟩, ⟨"evil.com", "c2"⟩],
       [⟨"https://www.bing.com", "o1"⟩, ⟨"https://evil.com", "o2"⟩]⟩
      (by decide)).1⟩


/-- Environments for the C1 counterexample: bing's navigation raises,
duckduckgo extracts one result normally. -/
def c1envs : String → FetchEnv := fun n =>
  if n = "bing" then { gotoFails := true }
  else { items := [.got "T1" "http://a"] }

/-- Environments with no task-level failure: bing's locator count raises
(contained), duckduckgo extracts one result. -/
def c1okEnvs : String → FetchEnv := fun n =>
  if n = "bing" then { countFails := true, items := [.got "X" "http://x"] }
  else { items := [.got "T1" "http://a"] }

/-- C1 (amended): failures inside `extract_results` (a raising
`loc.count()` or per-item failures) are contained and yield an empty or
partial hit list for that engine while the batch continues; but a
whole-task failure (for example `page.goto` raising in `fetch_engine`)
propagates through `asyncio.gather`, so `multi_search_with_context`
raises and returns no hits at all. -/
theorem claim_c1_engine_failure (envs : String → FetchEnv)
    (engines : Option (List String)) (topK : Nat) :
    ((selectedEngines engines ≠ []) →
      (∀ e ∈ selectedEngines engines, taskSucceeds (envs e.name) = true) →
      multi_search_with_context envs engines topK =
        .ok (dedupeByUrl ((selectedEngines engines).map fun e =>
          (extract_results (envs e.name) topK).map fun tu =>
            { engine := e.name,
              title := match e.clean_title with
                | some f => f tu.1
                | none => tu.1,
              url := tu.2 }).join)) ∧
    (∀ env : FetchEnv, ∀ eng topK2, env.countFails = true →
      taskSucceeds env = true → fetch_engine env eng topK2 = .ok []) ∧
    ((∃ e ∈ selectedEngines engines, taskSucceeds (envs e.name) = false) →
      ∃ err, multi_search_with_context envs engines topK = .error err) := by
  refine ⟨?_, ?_, ?_⟩
  · intro hne hok
    rw [multi_search_as_selected, if_neg (by simpa using hne)]
    rw [gatherResults_all_ok (selectedEngines engines) _
      (fun e => (extract_results (envs e.name) topK).map fun tu =>
        { engine := e.name,
          title := match e.clean_title with
            | some f => f tu.1
            | none => tu.1,
          url := tu.2 })
      (fun e he => fetch_engine_ok e topK (hok e he))]
  · intro env eng topK2 hcf hok
    rw [fetch_engine_ok eng topK2 hok]
    unfold extract_results
    rw [if_pos hcf]
    rfl
  · rintro ⟨e, he, hfail⟩
    rcases fetch_engine_fails e topK hfail with ⟨err, herr⟩
    have hmem : Except.error err ∈ (selectedEngines engines).map fun e2 =>
        fetch_engine (envs e2.name) e2 topK :=
      List.mem_map.mpr ⟨e, he, herr⟩
    rcases gatherResults_error hmem with ⟨err2, herr2⟩
    refine ⟨err2, ?_⟩
    rw [multi_search_as_selected,
      if_neg (by simpa using List.ne_nil_of_mem he), herr2]

/-- Witness for C1: a failing task aborts the whole dispatcher call, and
a contained count failure yields the empty list for its engine. -/
theorem claim_c1_witness :
    taskSucceeds (c1envs "bing") = false ∧
    (∃ err, multi_search_with_context c1envs (some ["bing", "duckduckgo"]) 2
      = .error err) ∧
    (c1okEnvs "bing").countFails = true ∧
    fetch_engine (c1okEnvs "bing") bingEngine 2 = .ok [] :=
  ⟨by decide,
   (claim_c1_engine_failure c1envs (some ["bing", "duckduckgo"]) 2).2.2
     ⟨bingEngine, by rw [show selectedEngines (some ["bing", "duckduckgo"]) =
        [bingEngine, duckduckgoEngine] from rfl]; simp, by decide⟩,
   by decide,
   (claim_c1_engine_failure c1okEnvs none 2).2.1 (c1okEnvs "bing")
     bingEngine 2 (by decide) (by decide)⟩

/-- Counterexample for C1 as stated: bing's navigation raises while
duckduckgo has an extractable result, yet the whole
`multi_search_with_context` call raises instead of returning
duckduckgo's hits with an empty list for bing. -/
theorem claim_c1_counterexample :
    multi_search_with_context c1envs (some ["bing", "duckduckgo"]) 2 =
      .error "Exception(page.goto failed)" ∧
    extract_results (c1envs "duckduckgo") 2 = [("T1", "http://a")] :=
  ⟨rfl, by decide⟩

/-- C2: under the claim's scope (the steps from navigation through
scoring, all inside the `try`), `crawl_page_content` never propagates an
exception — any failing step yields an error-tagged `PageResult` whose
`error` field carries the description — and the crawl stage over N hits
returns exactly N PageResults. -/
theorem claim_c2_contained (env : CrawlEnv) (item : Hit) (mc : Nat)
    (ds : Bool) (h1 : env.newPageOk = true) (h2 : env.closeOk = true) :
    (∃ r, crawl_page_content env item mc ds = .ok r) ∧
    (∀ e, crawlTryBody env item mc ds = .error e →
      crawl_page_content env item mc ds = .ok (errorPageResult item e) ∧
      (errorPageResult item e).error = some e ∧
      (errorPageResult item e).text = "") ∧
    (∀ jobs : List (CrawlEnv × Hit),
      (∀ j ∈ jobs, j.1.newPageOk = true ∧ j.1.closeOk = true) →
      (webSearchCrawlStage jobs mc ds).length = jobs.length) := by
  refine ⟨?_, ?_, ?_⟩
  · exact ⟨_, crawl_page_content_eq item mc ds h1 h2⟩
  · intro e he
    refine ⟨?_, rfl, rfl⟩
    rw [crawl_page_content_eq item mc ds h1 h2, he]
  · intro jobs
    induction jobs with
    | nil => intro _; rfl
    | cons j rest ih =>
      intro hjobs
      have hj := hjobs j (by simp)
      have hcr := @crawl_page_content_eq j.1 j.2 mc ds hj.1 hj.2
      unfold webSearchCrawlStage at ih ⊢
      simp only [List.map_cons, List.filterMap_cons, hcr, List.length_cons]
      rw [ih (fun x hx => hjobs x (by simp [hx]))]

/-- Witness for C2: a navigation failure is contained as an error
PageResult, and two crawl jobs return exactly two PageResults. -/
theorem claim_c2_witness :
    ({ goto := some "TimeoutError(nav)" } : CrawlEnv).newPageOk = true ∧
    crawl_page_content { goto := some "TimeoutError(nav)" }
        ⟨"bing", "t", "http://x"⟩ 10000 true =
      .ok (errorPageResult ⟨"bing", "t", "http://x"⟩ "TimeoutError(nav)") ∧
    (webSearchCrawlStage
      [({ goto := some "TimeoutError(nav)" }, ⟨"bing", "t", "http://x"⟩),
       ({ goto := some "TimeoutError(nav)" }, ⟨"bing", "t", "http://x"⟩)]
      10000 true).length = 2 :=
  ⟨rfl,
   ((claim_c2_contained { goto := some "TimeoutError(nav)" }
      ⟨"bing", "t", "http://x"⟩ 10000 true rfl rfl).2.1
     "TimeoutError(nav)" rfl).1,
   (claim_c2_contained { goto := some "TimeoutError(nav)" }
      ⟨"bing", "t", "http://x"⟩ 10000 true rfl rfl).2.2
     [({ goto := some "TimeoutError(nav)" }, ⟨"bing", "t", "http://x"⟩),
      ({ goto := some "TimeoutError(nav)" }, ⟨"bing", "t", "http://x"⟩)]
     (by
       intro j hj
       simp only [List.mem_cons, List.not_mem_nil, or_false] at hj
       rcases hj with h | h <;> (subst h; exact ⟨rfl, rfl⟩))⟩


/-- C7 (amended): each candidate's raw score is multiplied by the fixed
trust weights (github_issue ×1.55, selectors ×1.20, main_block ×1.10,
readability ×1.00, body ×0.90) and the winner carries a maximal weighted
score; for equal *positive* raw scores a github_issue candidate strictly
outranks a body candidate after weighting (at raw score 0 both weighted
scores are 0; the code moreover never produces github_issue and body
candidates together, body being used only when no other candidate
exists). -/
theorem claim_c7_weighted_selection :
    (methodPrior "github_issue" = 1.55 ∧ methodPrior "selectors" = 1.20 ∧
     methodPrior "main_block" = 1.10 ∧ methodPrior "readability" = 1.00 ∧
     methodPrior "body" = 0.90) ∧
    (∀ (env : CrawlEnv) (item : Hit) (mc : Nat) (ds : Bool) (r : PageResult),
      crawl_page_content env item mc ds = .ok r → r.error = none →
      ∃ s cs, r.score = some s ∧ r.candidates = some cs ∧
        ∀ c ∈ cs, c.score ≤ s) ∧
    (∀ s : ℚ, 0 < s →
      methodPrior "body" * s < methodPrior "github_issue" * s) := by
  refine ⟨⟨rfl, rfl, rfl, rfl, rfl⟩, ?_, ?_⟩
  · intro env item mc ds r hok herr
    rcases crawl_ok_success_shape hok herr with
      ⟨crb, best, rest, hcp, hs, hm, hsc, hcands⟩
    refine ⟨best.2.1, _, hsc, hcands, ?_⟩
    intro c hc
    rcases List.mem_map.mp hc with ⟨y, hy, hmap⟩
    have hy2 : y ∈ sortScoredDesc (weightCandidates crb.1) := by
      rw [hs]; exact hy
    have hle := sortScoredDesc_head_max hs y hy2
    rw [← hmap]
    exact hle
  · intro s hs
    have h : methodPrior "body" < methodPrior "github_issue" := by
      rw [show methodPrior "body" = 0.90 from rfl,
        show methodPrior "github_issue" = 1.55 from rfl]
      norm_num
    exact mul_lt_mul_of_pos_right h hs

/-- Counterexample for C7 as stated: two candidates with equal raw score
0 get equal weighted scores, so the github_issue candidate does not
strictly outrank the body candidate. -/
theorem claim_c7_counterexample :
    score_text "x" = 0 ∧
    methodPrior "github_issue" * score_text "x" =
      methodPrior "body" * score_text "x" ∧
    ¬ (methodPrior "body" * score_text "x" <
        methodPrior "github_issue" * score_text "x") := by
  have h : score_text "x" = 0 := rfl
  refine ⟨h, ?_, ?_⟩
  · rw [h, mul_zero, mul_zero]
  · rw [h, mul_zero, mul_zero]
    exact lt_irrefl 0

/-- Concrete crawl environment where only the selector strategy yields
text (a 250-character block). -/
def wsSelText : String := String.mk (List.replicate 250 'b')

/-- Environment for the successful-crawl witnesses. -/
def wsCrawlEnv : CrawlEnv := { selectorOutcomes := [some wsSelText] }

/-- Hit used by the crawl witnesses. -/
def wsItem : Hit := ⟨"bing", "t", "http://x"⟩

/-- PageResult produced by `crawl_page_content wsCrawlEnv wsItem` (the
contained value of the `try` body, exactly as `crawl_page_content`
returns it). -/
def wsResult : PageResult :=
  match crawlTryBody wsCrawlEnv wsItem 10000 false with
  | .ok r => r
  | .error e => errorPageResult wsItem e

set_option maxRecDepth 16000 in
/-- Witness for C7 at a concrete successful crawl and at weight factor
s = 1. -/
theorem claim_c7_witness :
    crawl_page_content wsCrawlEnv wsItem 10000 false = .ok wsResult ∧
    wsResult.error = none ∧
    (∃ s cs, wsResult.score = some s ∧ wsResult.candidates = some cs ∧
      ∀ c ∈ cs, c.score ≤ s) ∧
    (0 : ℚ) < 1 ∧
    methodPrior "body" * 1 < methodPrior "github_issue" * 1 :=
  ⟨crawl_page_content_eq wsItem 10000 false rfl rfl, rfl,
   claim_c7_weighted_selection.2.1 wsCrawlEnv wsItem 10000 false wsResult
     (crawl_page_content_eq wsItem 10000 false rfl rfl) rfl,
   by norm_num,
   claim_c7_weighted_selection.2.2 1 (by norm_num)⟩

/-- C10: every error-free PageResult from `crawl_page_content` carries a
non-empty candidates list and a method drawn from the five strategy tags;
and when navigation succeeds but no strategy (including the body
fallback) produces non-empty text, the result is an error PageResult
(from the `IndexError` on the empty scored list) with empty text and no
candidates. -/
theorem claim_c10_empty_extraction :
    (∀ (env : CrawlEnv) (item : Hit) (mc : Nat) (ds : Bool) (r : PageResult),
      crawl_page_content env item mc ds = .ok r → r.error = none →
      ∃ cs, r.candidates = some cs ∧ cs ≠ [] ∧
        ∃ m, r.method = some m ∧ m ∈ methodNames) ∧
    (∀ (env : CrawlEnv) (item : Hit) (mc : Nat) (ds : Bool) mcs rb raw,
      env.newPageOk = true → env.closeOk = true →
      env.goto = none → env.scroll = none →
      env.mainEval = .ok mcs → env.readability = .ok rb →
      env.bodyEval = .ok raw →
      strategyCands env mc mcs rb = [] →
      normalize_text raw mc = "" →
      crawl_page_content env item mc ds =
        .ok (errorPageResult item "IndexError(list index out of range)") ∧
      (errorPageResult item "IndexError(list index out of range)").error =
        some "IndexError(list index out of range)" ∧
      (errorPageResult item "IndexError(list index out of range)").text
        = "" ∧
      (errorPageResult item
        "IndexError(list index out of range)").candidates = none) := by
  constructor
  · intro env item mc ds r hok herr
    rcases crawl_ok_success_shape hok herr with
      ⟨crb, best, rest, hcp, hs, hm, hsc, hcands⟩
    refine ⟨_, hcands, by simp, best.1, hm, ?_⟩
    have hb : best ∈ sortScoredDesc (weightCandidates crb.1) := by
      rw [hs]; simp
    have hb2 := (sortScoredDesc_spec _).2.1 best hb
    rcases List.mem_map.mp hb2 with ⟨mt, hmt, hmap⟩
    have htag := candidatePhase_tags hcp mt hmt
    rw [← hmap]
    exact htag
  · intro env item mc ds mcs rb raw h1 h2 hg hsc hm hr hb hstrat hnorm
    have hnav : navPhase env ds = Except.ok () := by
      cases ds <;> simp [navPhase, hg, hsc]
    have hcp : candidatePhase env mc = .ok ([], rb) := by
      unfold candidatePhase
      simp only [hm, hr]
      rw [if_pos hstrat]
      simp [hb, hnorm]
    have htb : crawlTryBody env item mc ds =
        .error "IndexError(list index out of range)" := by
      unfold crawlTryBody
      simp only [hnav, hcp]
      rfl
    refine ⟨?_, rfl, rfl, rfl⟩
    rw [crawl_page_content_eq item mc ds h1 h2, htb]

/-- Environment where navigation succeeds but every extraction strategy
and the body fallback produce empty text. -/
def wsEmptyEnv : CrawlEnv := {}

set_option maxRecDepth 16000 in
/-- Witness for C10 at a successful crawl and at an all-empty crawl. -/
theorem claim_c10_witness :
    crawl_page_content wsCrawlEnv wsItem 10000 false = .ok wsResult ∧
    wsResult.error = none ∧
    (∃ cs, wsResult.candidates = some cs ∧ cs ≠ [] ∧
      ∃ m, wsResult.method = some m ∧ m ∈ methodNames) ∧
    crawl_page_content wsEmptyEnv wsItem 10000 false =
      .ok (errorPageResult wsItem "IndexError(list index out of range)") :=
  ⟨crawl_page_content_eq wsItem 10000 false rfl rfl, rfl,
   claim_c10_empty_extraction.1 wsCrawlEnv wsItem 10000 false wsResult
     (crawl_page_content_eq wsItem 10000 false rfl rfl) rfl,
   (claim_c10_empty_extraction.2 wsEmptyEnv wsItem 10000 false []
     ⟨none, ""⟩ "" rfl rfl rfl rfl rfl rfl rfl rfl rfl).1⟩

end WebSearch
